import Mathlib

/-
Verification of the ETerm terminal-pool engine against its specification.

The repository ships the C FFI surface of the engine
(src/ETerm/ETerm/Core/Terminal/Infrastructure/FFI/SugarloafBridge.h and
src/ETerm/ETerm/SugarloafBridge.h); the engine behind those declarations is
not part of the source tree.  The definitions below therefore embed the data
model and operations described by the specification and by the doc comments
of the FFI declarations; each definition's doc comment records what it is
modelled from.
-/

set_option autoImplicit false

/-- Whitespace test used by selection finalize.  Modelled from the spec:
the selection-finalize rule counts spaces, tabs and newlines as whitespace
(engine implementation absent from the source tree; the header only declares
`terminal_pool_finalize_selection`). -/
def isWS (c : Char) : Bool :=
  c == ' ' || c == '\t' || c == '\n'

/-- An absolute position: signed absolute row (row 0 is the oldest retained
history line, rows at or above the history length are the visible viewport)
plus a column.  Modelled from the spec: the AbsoluteRow data model; the header
uses `int64_t absolute_row` with a `size_t col`. -/
structure AbsPos where
  row : Int
  col : Nat
deriving DecidableEq

/-- Selection kinds.  Modelled from the spec: Simple / Semantic / Lines,
matching the header's `SelectionType` enum. -/
inductive SelKind where
  | simple
  | semantic
  | lines
deriving DecidableEq

/-- A selection: fixed anchor, live extent, kind.  Modelled from the spec:
the Selection record (engine implementation absent from the source tree). -/
structure Selection where
  anchor : AbsPos
  extent : AbsPos
  kind : SelKind
deriving DecidableEq

/-- A search match: absolute row, start column, length.  Modelled from the
spec: matches are AbsoluteRanges over the unified buffer. -/
structure SearchMatch where
  row : Int
  col : Nat
  len : Nat
deriving DecidableEq

/-- Search state of one terminal.  Modelled from the spec: pattern, eagerly
computed ordered match list, and a 0-based `currentIndex` that is `none`
exactly when there are zero matches. -/
structure SearchState where
  pattern : String
  matchList : List SearchMatch
  currentIndex : Option Nat
deriving DecidableEq

/-- Terminal mode.  Modelled from the spec and the header's Terminal Mode
API: 0 = Active, 1 = Background. -/
inductive TermMode where
  | active
  | background
deriving DecidableEq

/-- Per-terminal record of the pool.  Modelled from the spec: the
TerminalEntry data model (grid dimensions, display offset, scrollback
history rows, visible viewport rows, optional selection and search state,
mode).  PTY and render-layout fields are omitted: no claim mentions them. -/
structure Entry where
  cols : Nat
  rows : Nat
  displayOffset : Nat
  history : List (List Char)
  viewport : List (List Char)
  selection : Option Selection
  search : Option SearchState
  mode : TermMode
deriving DecidableEq

/-- The unified history+viewport buffer addressed by absolute rows.
Modelled from the spec: absolute row 0 is the oldest retained history line,
rows at or above the history length are the viewport. -/
def unifiedRows (e : Entry) : List (List Char) :=
  e.history ++ e.viewport

/-- Text of one absolute row; rows outside the retained buffer resolve to
the empty row.  Modelled from the spec: lookups on rows that no longer
resolve must fail gracefully rather than panic. -/
def rowAt (e : Entry) (r : Int) : List Char :=
  if r < 0 then [] else (unifiedRows e).getD r.toNat []

/-- Normalize a selection to (start, end) with start ≤ end in row-major
order.  Modelled from the spec: normalization happens at read time, never by
mutating the anchor. -/
def normalizeSel (s : Selection) : AbsPos × AbsPos :=
  if s.anchor.row < s.extent.row ∨
      (s.anchor.row = s.extent.row ∧ s.anchor.col ≤ s.extent.col) then
    (s.anchor, s.extent)
  else
    (s.extent, s.anchor)

/-- Columns `a..b` (inclusive) of one row. -/
def sliceCols (row : List Char) (a b : Nat) : List Char :=
  (row.drop a).take (b + 1 - a)

/-- Concatenation of a list of lists. -/
def concatAll {α : Type} (l : List (List α)) : List α :=
  l.foldr (· ++ ·) []

/-- Text covered by a selection, rows joined with newlines.  Modelled from
the spec: the selection engine reads the selection text from the unified
history+viewport buffer (engine implementation absent from the source
tree). -/
def selText (e : Entry) (s : Selection) : List Char :=
  let p := normalizeSel s
  if p.1.row = p.2.row then
    sliceCols (rowAt e p.1.row) p.1.col p.2.col
  else
    let firstPart := (rowAt e p.1.row).drop p.1.col
    let midCount := (p.2.row - p.1.row - 1).toNat
    let middle := concatAll
      ((List.range midCount).map (fun i => '\n' :: rowAt e (p.1.row + 1 + (i : Int))))
    firstPart ++ middle ++ '\n' :: (rowAt e p.2.row).take (p.2.col + 1)

/-- Result of `terminal_pool_finalize_selection`: the selected text and
whether a valid (non-whitespace) selection remains.  Translated from the
header's `FinalizeSelectionResult` struct. -/
structure FinalizeResult where
  text : List Char
  has_selection : Bool
deriving DecidableEq

/-- Finalize the selection of one terminal.  Modelled from the spec and the
header doc of `terminal_pool_finalize_selection`: read the selection text;
if it is entirely whitespace, clear the selection and report
`has_selection = false`; otherwise keep the selection and return the text
with `has_selection = true` (engine implementation absent from the source
tree). -/
def finalizeSelection (e : Entry) : FinalizeResult × Entry :=
  match e.selection with
  | none => ({ text := [], has_selection := false }, e)
  | some s =>
    let txt := selText e s
    if txt.all isWS then
      ({ text := txt, has_selection := false }, { e with selection := none })
    else
      ({ text := txt, has_selection := true }, e)

/-- The terminal pool: monotone id counter, id-keyed entry registry, the
list of all ids ever returned by create, and the pool-wide dirty flag.
Modelled from the spec: the Terminal Pool registry with monotonically
allocated, never-reused ids and a single ORed dirty flag (engine
implementation absent from the source tree). -/
structure Pool where
  nextId : Nat
  entries : List (Nat × Entry)
  issued : List Nat
  dirty : Bool
deriving DecidableEq

/-- A freshly created pool: ids start at 1 as the header doc of
`terminal_pool_create_terminal` promises ids at least 1. -/
def initPool : Pool :=
  { nextId := 1, entries := [], issued := [], dirty := false }

/-- First entry bound to `id` in an id-keyed registry list. -/
def findVal : List (Nat × Entry) → Nat → Option Entry
  | [], _ => none
  | kv :: tl, id => if kv.1 = id then some kv.2 else findVal tl id

/-- Registry lookup of a terminal id, `none` for unknown or closed ids. -/
def lookupEntry (p : Pool) (id : Nat) : Option Entry :=
  findVal p.entries id

/-- Pool well-formedness: ids start at 1 and every id ever issued (and every
live entry's id) is below the allocation counter. -/
def PoolWF (p : Pool) : Prop :=
  1 ≤ p.nextId ∧ (∀ i ∈ p.issued, i < p.nextId) ∧ ∀ kv ∈ p.entries, kv.1 < p.nextId

instance (p : Pool) : Decidable (PoolWF p) := by
  unfold PoolWF; infer_instance

/-- A fresh terminal entry of the given grid size.  Modelled from the spec:
`create` initializes an empty grid, no scrollback, no selection or search
state, display offset 0, and the terminal starts in Active mode
(state machine `Created → Active`). -/
def newEntry (cols rows : Nat) : Entry :=
  { cols := cols, rows := rows, displayOffset := 0, history := [],
    viewport := List.replicate rows (List.replicate cols ' '),
    selection := none, search := none, mode := .active }

/-- `terminal_pool_create_terminal`.  Modelled from the spec and the header
doc: allocates a new id (at least 1, strictly increasing, never reused) and
registers a fresh entry, or returns the sentinel -1 when the PTY/process
cannot be spawned; `spawnOk` is the outcome of the spawn attempt (engine
implementation absent from the source tree). -/
def createTerminal (p : Pool) (spawnOk : Bool) (cols rows : Nat) : Int × Pool :=
  if spawnOk then
    (Int.ofNat p.nextId,
     { nextId := p.nextId + 1,
       entries := (p.nextId, newEntry cols rows) :: p.entries,
       issued := p.nextId :: p.issued,
       dirty := true })
  else
    (-1, p)

/-- `terminal_pool_close_terminal`.  Modelled from the spec: removes the
entry and reports true; closing an unknown or already-closed id is a no-op
reported as failure (false), never a crash.  The id counter and the issued
list are untouched, so closed ids are never reused (engine implementation
absent from the source tree). -/
def closeTerminal (p : Pool) (id : Nat) : Bool × Pool :=
  match lookupEntry p id with
  | some _ =>
    (true, { p with entries := p.entries.filter (fun kv => decide (kv.1 ≠ id)), dirty := true })
  | none => (false, p)

/-- Apply `f` to the entry bound to `id`, if any. -/
def updateEntry (p : Pool) (id : Nat) (f : Entry → Entry) : Pool :=
  { p with entries := p.entries.map (fun kv => if kv.1 = id then (kv.1, f kv.2) else kv) }

/-- Numeric code of a terminal mode at the FFI boundary.  Translated from the
header doc of `terminal_pool_get_mode`: 0 = Active, 1 = Background. -/
def modeCode : TermMode → Nat
  | .active => 0
  | .background => 1

/-- `terminal_pool_get_mode`.  Modelled from the spec and the header doc:
returns the terminal's mode code, or the sentinel 255 when the id is unknown
or closed (engine implementation absent from the source tree). -/
def getMode (p : Pool) (id : Nat) : Nat :=
  match lookupEntry p id with
  | some e => modeCode e.mode
  | none => 255

/-- `terminal_pool_set_mode`.  Modelled from the spec and the header doc:
stores the new mode on the entry; switching to Active marks the pool dirty
so the next frame picks up missed visual state (engine implementation absent
from the source tree). -/
def setMode (p : Pool) (id : Nat) (m : TermMode) : Pool :=
  { updateEntry p id (fun e => { e with mode := m }) with
    dirty := p.dirty || (m == TermMode.active) }

/-- Resize one entry.  Modelled from the spec: resizing to a smaller height
truncates the visible viewport (grown viewports are padded with empty rows);
width re-wrapping is delegated to the grid store and rows are kept as they
are; scrollback history is not touched by a resize. -/
def resizeEntry (e : Entry) (cols rows : Nat) : Entry :=
  { e with
    cols := cols
    rows := rows
    viewport := e.viewport.take rows ++ List.replicate (rows - e.viewport.length) [] }

/-- Number of retained scrollback history rows, as reported by
`terminal_get_history_size`.  Modelled from the spec: the row count of the
retained history. -/
def historySize (e : Entry) : Nat :=
  e.history.length

/-- `terminal_pool_resize_terminal`.  Modelled from the spec: resizes the
grid of a live terminal and marks the pool dirty; unknown ids fail (engine
implementation absent from the source tree). -/
def resizeTerminal (p : Pool) (id cols rows : Nat) : Bool × Pool :=
  match lookupEntry p id with
  | some _ => (true, { updateEntry p id (fun e => resizeEntry e cols rows) with dirty := true })
  | none => (false, p)

/-- Pool operations that matter to dirty tracking, projected onto their
effect on the pool-wide dirty flag.  Modelled from the spec: any mutation
that can change visual output (PTY data arrival, cursor blink tick,
selection/search change, resize, font-size change) sets the single shared
dirty flag; `clear_render_flag` resets it; pure reads leave it alone. -/
inductive PoolOp where
  | ptyData (id : Nat)
  | cursorBlinkTick
  | selectionChange (id : Nat)
  | searchChange (id : Nat)
  | resizeOp (id cols rows : Nat)
  | fontSizeChange
  | clearFlag
  | readQuery
deriving DecidableEq

/-- Whether an operation is a visual-state mutation (a dirty setter). -/
def setsDirty : PoolOp → Bool
  | .ptyData _ => true
  | .cursorBlinkTick => true
  | .selectionChange _ => true
  | .searchChange _ => true
  | .resizeOp _ _ _ => true
  | .fontSizeChange => true
  | .clearFlag => false
  | .readQuery => false

/-- Effect of one operation on the pool's dirty flag.  Modelled from the
spec: dirty is a single flag ORed across all terminals, set by any
visual-state mutation of any terminal and cleared by `clear_render_flag`. -/
def applyOp (p : Pool) (op : PoolOp) : Pool :=
  match op with
  | .clearFlag => { p with dirty := false }
  | _ => if setsDirty op then { p with dirty := true } else p

/-- Fold a list of operations over the pool, oldest first. -/
def applyOps (p : Pool) (ops : List PoolOp) : Pool :=
  ops.foldl applyOp p

/-- `terminal_pool_needs_render`.  Modelled from the spec: reports the
pool-wide dirty flag. -/
def needsRender (p : Pool) : Bool :=
  p.dirty

/-- `terminal_pool_clear_render_flag`.  Modelled from the spec: resets the
pool-wide dirty flag. -/
def clearRenderFlag (p : Pool) : Pool :=
  { p with dirty := false }

/-- `terminal_pool_screen_to_absolute`.  Modelled from the spec: a screen
coordinate valid for the current grid maps to absolute row
`screenRow + historyLength - displayOffset` (row 0 is the oldest history
line; with display offset 0 the viewport sits just above the history);
invalid coordinates fail, matching the header's `success` flag (engine
implementation absent from the source tree). -/
def screenToAbsolute (e : Entry) (screenRow screenCol : Nat) : Option (Int × Nat) :=
  if screenRow < e.rows ∧ screenCol < e.cols then
    some ((screenRow : Int) + (e.history.length : Int) - (e.displayOffset : Int), screenCol)
  else
    none

/-- The inverse conversion query of the selection engine.  Modelled from the
spec: the explicit screen↔absolute conversion maps absolute row `a` back to
screen row `a - historyLength + displayOffset` when that lands inside the
viewport, and fails otherwise (engine implementation absent from the source
tree). -/
def absoluteToScreen (e : Entry) (absRow : Int) (col : Nat) : Option (Nat × Nat) :=
  if 0 ≤ absRow - (e.history.length : Int) + (e.displayOffset : Int) ∧
      absRow - (e.history.length : Int) + (e.displayOffset : Int) < (e.rows : Int) ∧
      col < e.cols then
    some ((absRow - (e.history.length : Int) + (e.displayOffset : Int)).toNat, col)
  else
    none

/-- Start columns at which `q` occurs literally in `row`. -/
def rowMatchCols (row q : List Char) : List Nat :=
  (List.range row.length).filter (fun c => (row.drop c).take q.length == q)

/-- All matches of a literal query over the unified history+viewport buffer,
in top-to-bottom, left-to-right order.  Modelled from the spec: the search
engine scans the full retained buffer top-to-bottom at start time and builds
the ordered match list (engine implementation absent from the source
tree). -/
def findMatches (e : Entry) (q : List Char) : List SearchMatch :=
  concatAll
    ((List.range (unifiedRows e).length).map (fun r =>
      (rowMatchCols ((unifiedRows e).getD r []) q).map
        (fun c => { row := (r : Int), col := c, len := q.length })))

/-- Search state installed by a successful search start.  Modelled from the
spec: the eagerly computed ordered match list, with the current match set to
the first match on/after the current viewport (or the first match overall
when none is at or below the viewport top), and no current match when the
match list is empty. -/
def installedSearch (e : Entry) (q : String) : SearchState :=
  let ms := findMatches e q.toList
  let viewportTop : Int := (e.history.length : Int) - (e.displayOffset : Int)
  { pattern := q
    matchList := ms
    currentIndex :=
      if ms.isEmpty then none
      else some ((ms.findIdx? (fun m => viewportTop ≤ m.row)).getD 0) }

/-- `terminal_pool_search`.  Modelled from the spec and the header doc of
`terminal_pool_search` (which is the authority on the return codes: the match
count, at least 0, on success, or -1 on failure): an unknown terminal id and
a pattern that fails to compile are both failures returning -1 and leaving
the pool untouched (no partial match list); on success the match list is
installed with the current match set to the first match on/after the current
viewport.  `compileOk` is the outcome of the pattern-compile attempt (engine
implementation absent from the source tree). -/
def searchStart (p : Pool) (id : Nat) (q : String) (compileOk : Bool) : Int × Pool :=
  match lookupEntry p id with
  | none => (-1, p)
  | some e =>
    if compileOk then
      (((findMatches e q.toList).length : Int),
       { updateEntry p id (fun e2 => { e2 with search := some (installedSearch e q) })
         with dirty := true })
    else
      (-1, p)

/-- Search `next` of the engine.  Modelled from the spec: advances the
current index circularly through the match list (wrapping from last to
first) and reports the new 1-based index, or 0 when there are no matches,
changing nothing (the FFI wrapper `terminal_pool_search_next` discards the
reported index; engine implementation absent from the source tree). -/
def searchNext (e : Entry) : Nat × Entry :=
  match e.search with
  | none => (0, e)
  | some st =>
    if st.matchList.isEmpty then (0, e)
    else
      let cur := st.currentIndex.getD 0
      let nxt := (cur + 1) % st.matchList.length
      (nxt + 1, { e with search := some { st with currentIndex := some nxt } })

/-- Search `prev` of the engine.  Modelled from the spec: advances the
current index circularly backwards (wrapping from first to last) and reports
the new 1-based index, or 0 when there are no matches, changing nothing
(engine implementation absent from the source tree). -/
def searchPrev (e : Entry) : Nat × Entry :=
  match e.search with
  | none => (0, e)
  | some st =>
    if st.matchList.isEmpty then (0, e)
    else
      let cur := st.currentIndex.getD 0
      let prv := (cur + st.matchList.length - 1) % st.matchList.length
      (prv + 1, { e with search := some { st with currentIndex := some prv } })

/-- CJK code-point test.  Modelled from the spec: the word-boundary rule
classifies CJK code points as their own class; the main CJK blocks (kana,
CJK Unified Ideographs and extension A, compatibility ideographs, hangul)
are covered (engine implementation absent from the source tree). -/
def isCJK (c : Char) : Bool :=
  (0x3040 ≤ c.toNat && c.toNat ≤ 0x30FF) ||
  (0x3400 ≤ c.toNat && c.toNat ≤ 0x4DBF) ||
  (0x4E00 ≤ c.toNat && c.toNat ≤ 0x9FFF) ||
  (0xF900 ≤ c.toNat && c.toNat ≤ 0xFAFF) ||
  (0xAC00 ≤ c.toNat && c.toNat ≤ 0xD7AF)

/-- Alphanumeric-or-underscore code-point test.  Modelled from the spec:
ASCII letters and digits, the underscore, and accented Latin letters
(Latin-1 supplement and Latin extended, excluding the multiplication and
division signs) count as word characters (engine implementation absent from
the source tree). -/
def isWordChar (c : Char) : Bool :=
  c.isAlphanum || c == '_' ||
  (0xC0 ≤ c.toNat && c.toNat ≤ 0x24F && c.toNat != 0xD7 && c.toNat != 0xF7)

/-- The four character classes of the word-boundary rule.  Modelled from the
spec and the header doc of `terminal_pool_get_word_at`: CJK,
alphanumeric-or-underscore, whitespace, other-symbol. -/
inductive CharClass where
  | cjk
  | wordChar
  | space
  | symbol
deriving DecidableEq

/-- Classify one code point.  Modelled from the spec: the word-boundary rule
classifies each code point into one of the four classes. -/
def classifyChar (c : Char) : CharClass :=
  if isCJK c then .cjk
  else if isWordChar c then .wordChar
  else if isWS c then .space
  else .symbol

/-- Word under position `i` of a line, per `terminal_pool_get_word_at`.
Modelled from the spec and the header doc: scan outward from the anchor;
CJK runs and alphanumeric/underscore runs merge into one word each,
whitespace is purely a separator (no word), and every other-symbol
character is its own one-character word (engine implementation absent from
the source tree). -/
def wordAt (line : List Char) (i : Nat) : Option (List Char) :=
  match line.drop i with
  | [] => none
  | c :: rest =>
    match classifyChar c with
    | .space => none
    | .symbol => some [c]
    | cls =>
      let before := ((line.take i).reverse.takeWhile (fun d => classifyChar d == cls)).reverse
      let after := rest.takeWhile (fun d => classifyChar d == cls)
      some (before ++ c :: after)

/-- The test line of the specification's word-boundary property. -/
def testLine : List Char :=
  "héllo_world 你好 !!".toList

/-- Example selection used by concrete witnesses. -/
def selA : Selection :=
  { anchor := { row := 0, col := 0 }, extent := { row := 0, col := 1 }, kind := .simple }

/-- Example terminal with a non-whitespace selection. -/
def entA : Entry :=
  { cols := 4, rows := 2, displayOffset := 0, history := [],
    viewport := [['a', 'b', ' ', ' '], ['c', 'd', ' ', ' ']],
    selection := some selA, search := none, mode := .active }

/-- Example terminal with scrollback history and a nonzero display offset. -/
def entB : Entry :=
  { cols := 3, rows := 2, displayOffset := 1,
    history := [['x'], ['y']],
    viewport := [['a', 'b', 'c'], ['d', 'e', 'f']],
    selection := none, search := none, mode := .background }

/-- Example pool holding exactly one terminal, with id 1. -/
def poolB : Pool :=
  (createTerminal initPool true 2 2).2

/-- Updating the entry of `id` rewrites exactly the value `find?` sees. -/
theorem findVal_update (l : List (Nat × Entry)) (id : Nat) (f : Entry → Entry) :
    findVal (l.map (fun kv => if kv.1 = id then (kv.1, f kv.2) else kv)) id =
      (findVal l id).map f := by
  induction l with
  | nil => rfl
  | cons kv tl ih =>
    by_cases h : kv.1 = id
    · simp [findVal, h]
    · simp [findVal, h, ih]

/-- Removing every binding of `id` makes its lookup fail. -/
theorem findVal_filter_ne (l : List (Nat × Entry)) (id : Nat) :
    findVal (l.filter (fun kv => decide (kv.1 ≠ id))) id = none := by
  induction l with
  | nil => rfl
  | cons kv tl ih =>
    simp only [decide_not] at ih
    by_cases h : kv.1 = id
    · simp [List.filter_cons, h, ih]
    · simp [List.filter_cons, h, findVal, ih]

/-- C1: for every terminal with an active selection, finalize reports
`has_selection = false` and clears the selection exactly when the selected
text is entirely whitespace (including the zero-width case); a selected text
with at least one non-whitespace character is returned with
`has_selection = true` and the selection (indeed the whole terminal state)
is left in place. -/
theorem finalize_selection_whitespace (e : Entry) (s : Selection)
    (hsel : e.selection = some s) :
    ((selText e s).all isWS = true →
      (finalizeSelection e).1.has_selection = false ∧
      (finalizeSelection e).2.selection = none) ∧
    ((selText e s).all isWS = false →
      (finalizeSelection e).1.has_selection = true ∧
      (finalizeSelection e).1.text = selText e s ∧
      (finalizeSelection e).2 = e) := by
  constructor <;> intro hws <;> simp [finalizeSelection, hsel, hws]

/-- Concrete run of `finalize_selection_whitespace` on `entA`, whose
selection covers the non-whitespace text `ab`. -/
theorem finalize_selection_whitespace_witness :
    entA.selection = some selA ∧
    (((selText entA selA).all isWS = true →
        (finalizeSelection entA).1.has_selection = false ∧
        (finalizeSelection entA).2.selection = none) ∧
     ((selText entA selA).all isWS = false →
        (finalizeSelection entA).1.has_selection = true ∧
        (finalizeSelection entA).1.text = selText entA selA ∧
        (finalizeSelection entA).2 = entA)) :=
  ⟨rfl, finalize_selection_whitespace entA selA rfl⟩

/-- C7: the word-at-point query merges alphanumeric/underscore runs and CJK
runs into single words, treats whitespace purely as a separator, and makes
every other-symbol character a one-character word: on the line
`héllo_world 你好 !!`, every position inside `héllo_world` yields exactly
`héllo_world`, the positions inside `你好` yield exactly `你好`, the spaces
yield no word, and a position on `!` yields that single character. -/
theorem word_at_classification :
    (∀ i ∈ List.range 11, wordAt testLine i = some "héllo_world".toList) ∧
    wordAt testLine 11 = none ∧
    wordAt testLine 12 = some "你好".toList ∧
    wordAt testLine 13 = some "你好".toList ∧
    wordAt testLine 14 = none ∧
    wordAt testLine 15 = some ['!'] ∧
    wordAt testLine 16 = some ['!'] := by
  decide

/-- C4: for every terminal and every screen coordinate valid for its grid,
converting screen → absolute and back with an unchanged display offset
returns the original coordinate. -/
theorem screen_absolute_round_trip (e : Entry) (row col : Nat)
    (hr : row < e.rows) (hc : col < e.cols) :
    ∃ a, screenToAbsolute e row col = some (a, col) ∧
      absoluteToScreen e a col = some (row, col) := by
  refine ⟨(row : Int) + (e.history.length : Int) - (e.displayOffset : Int), ?_, ?_⟩
  · simp only [screenToAbsolute]
    rw [if_pos ⟨hr, hc⟩]
  · simp only [absoluteToScreen]
    rw [if_pos ⟨by omega, by omega, hc⟩]
    simp only [Option.some.injEq, Prod.mk.injEq]
    exact ⟨by omega, trivial⟩

/-- Concrete run of `screen_absolute_round_trip` on `entB`, which has two
history rows and display offset 1. -/
theorem screen_absolute_round_trip_witness :
    1 < entB.rows ∧ 2 < entB.cols ∧
    (∃ a, screenToAbsolute entB 1 2 = some (a, 2) ∧
      absoluteToScreen entB a 2 = some (1, 2)) :=
  ⟨by decide, by decide, screen_absolute_round_trip entB 1 2 (by decide) (by decide)⟩

/-- Closing an id that does not resolve leaves the pool untouched and
reports failure. -/
theorem close_of_lookup_none (p : Pool) (id : Nat) (h : lookupEntry p id = none) :
    closeTerminal p id = (false, p) := by
  have hf : findVal p.entries id = none := h
  simp [closeTerminal, lookupEntry, hf]

/-- Example pool holding the history-carrying terminal `entB` under id 1. -/
def poolC : Pool :=
  { nextId := 2, entries := [(1, entB)], issued := [1], dirty := false }

/-- C9: for every live terminal and every resize, all previously retained
scrollback history rows are preserved: the history row count after
`resize_terminal` is exactly, hence at least, the count before; a resize
alone never discards scrollback content. -/
theorem resize_preserves_history (p : Pool) (id cols rows : Nat) (e : Entry)
    (h : lookupEntry p id = some e) :
    (resizeTerminal p id cols rows).1 = true ∧
    lookupEntry (resizeTerminal p id cols rows).2 id = some (resizeEntry e cols rows) ∧
    historySize (resizeEntry e cols rows) = historySize e ∧
    historySize e ≤ historySize (resizeEntry e cols rows) := by
  have hf : findVal p.entries id = some e := h
  have hu := findVal_update p.entries id (fun e2 => resizeEntry e2 cols rows)
  refine ⟨?_, ?_, rfl, le_refl _⟩
  · simp [resizeTerminal, lookupEntry, hf]
  · simp only [resizeTerminal, lookupEntry, updateEntry, hf]
    rw [hu, hf]
    rfl

/-- Concrete run of `resize_preserves_history`: resizing the pool `poolC`,
whose terminal `entB` carries two history rows, keeps its history. -/
theorem resize_preserves_history_witness :
    lookupEntry poolC 1 = some entB ∧
    ((resizeTerminal poolC 1 5 1).1 = true ∧
     lookupEntry (resizeTerminal poolC 1 5 1).2 1 = some (resizeEntry entB 5 1) ∧
     historySize (resizeEntry entB 5 1) = historySize entB ∧
     historySize entB ≤ historySize (resizeEntry entB 5 1)) :=
  ⟨by decide, resize_preserves_history poolC 1 5 1 entB (by decide)⟩

/-- C10: `get_mode` returns the sentinel 255 exactly for unknown or closed
terminal ids; a live terminal reports 0 (Active) or 1 (Background), namely
the mode most recently stored by `set_mode`, or the Active mode it was
created with when `set_mode` was never called. -/
theorem get_mode_sentinel (p : Pool) (id : Nat) (m : TermMode) :
    (getMode p id = 255 ↔ lookupEntry p id = none) ∧
    (∀ e, lookupEntry p id = some e →
      getMode p id = modeCode e.mode ∧ (getMode p id = 0 ∨ getMode p id = 1)) ∧
    (lookupEntry p id ≠ none → getMode (setMode p id m) id = modeCode m) ∧
    (∀ cols rows, getMode (createTerminal p true cols rows).2 p.nextId = 0) := by
  have hmc : ∀ mm : TermMode, modeCode mm = 0 ∨ modeCode mm = 1 := by
    intro mm; cases mm <;> simp [modeCode]
  refine ⟨?_, ?_, ?_, ?_⟩
  · cases hl : lookupEntry p id with
    | none => simp [getMode, hl]
    | some e =>
      rcases hmc e.mode with h | h <;> simp [getMode, hl, h]
  · intro e he
    have hg : getMode p id = modeCode e.mode := by simp [getMode, he]
    exact ⟨hg, hg ▸ hmc e.mode⟩
  · intro hne
    have hu := findVal_update p.entries id (fun e2 => { e2 with mode := m })
    cases hl : lookupEntry p id with
    | none => exact absurd hl hne
    | some e =>
      have hf : findVal p.entries id = some e := hl
      simp only [getMode, setMode, lookupEntry, updateEntry]
      rw [hu, hf]
      rfl
  · intro cols rows
    simp [getMode, createTerminal, lookupEntry, findVal, newEntry, modeCode]

/-- Concrete run of `get_mode_sentinel` on the one-terminal pool `poolB`. -/
theorem get_mode_sentinel_witness :
    (getMode poolB 1 = 255 ↔ lookupEntry poolB 1 = none) ∧
    (∀ e, lookupEntry poolB 1 = some e →
      getMode poolB 1 = modeCode e.mode ∧ (getMode poolB 1 = 0 ∨ getMode poolB 1 = 1)) ∧
    (lookupEntry poolB 1 ≠ none →
      getMode (setMode poolB 1 .background) 1 = modeCode .background) ∧
    (∀ cols rows, getMode (createTerminal poolB true cols rows).2 poolB.nextId = 0) :=
  get_mode_sentinel poolB 1 .background

/-- C6: closing an unknown or already-closed id is a no-op reported as
failure; closing a live id twice reports success once, then failure with
the pool state untouched by the second call. -/
theorem close_terminal_idempotent (p : Pool) (id : Nat) :
    (lookupEntry p id = none → closeTerminal p id = (false, p)) ∧
    (lookupEntry p id ≠ none →
      (closeTerminal p id).1 = true ∧
      lookupEntry (closeTerminal p id).2 id = none ∧
      closeTerminal (closeTerminal p id).2 id = (false, (closeTerminal p id).2)) := by
  refine ⟨close_of_lookup_none p id, ?_⟩
  intro hne
  cases hl : lookupEntry p id with
  | none => exact absurd hl hne
  | some e =>
    have hf : findVal p.entries id = some e := hl
    have hafter : lookupEntry (closeTerminal p id).2 id = none := by
      simp only [closeTerminal, lookupEntry, hf]
      simpa using findVal_filter_ne p.entries id
    refine ⟨?_, hafter, close_of_lookup_none _ _ hafter⟩
    simp [closeTerminal, lookupEntry, hf]

/-- Concrete run of `close_terminal_idempotent`: closing terminal 1 of the
one-terminal pool `poolB` twice. -/
theorem close_terminal_idempotent_witness :
    lookupEntry poolB 1 ≠ none ∧
    ((lookupEntry poolB 1 = none → closeTerminal poolB 1 = (false, poolB)) ∧
     (lookupEntry poolB 1 ≠ none →
       (closeTerminal poolB 1).1 = true ∧
       lookupEntry (closeTerminal poolB 1).2 1 = none ∧
       closeTerminal (closeTerminal poolB 1).2 1 = (false, (closeTerminal poolB 1).2))) :=
  ⟨by decide, close_terminal_idempotent poolB 1⟩

/-- C5: ids are allocated monotonically starting at 1 and never reused:
under the pool invariant, a successful create returns an id of at least 1
and strictly greater than every id the pool ever returned, the sentinel -1
is returned exactly when the PTY/process spawn fails (the pool is then
untouched), and closing a terminal never rewinds the allocation counter or
forgets issued ids, so closed ids are not recycled. -/
theorem create_terminal_id_allocation (p : Pool) (ok : Bool) (cols rows : Nat)
    (hwf : PoolWF p) :
    PoolWF initPool ∧
    (ok = false → createTerminal p ok cols rows = (-1, p)) ∧
    (ok = true →
      1 ≤ (createTerminal p ok cols rows).1 ∧
      (∀ i ∈ p.issued, (i : Int) < (createTerminal p ok cols rows).1) ∧
      (createTerminal p ok cols rows).2.issued = p.nextId :: p.issued ∧
      PoolWF (createTerminal p ok cols rows).2) ∧
    (∀ id, (closeTerminal p id).2.nextId = p.nextId ∧
           (closeTerminal p id).2.issued = p.issued ∧
           PoolWF (closeTerminal p id).2) := by
  obtain ⟨h1, h2, h3⟩ := hwf
  refine ⟨⟨le_refl 1, by simp [initPool], by simp [initPool]⟩, ?_, ?_, ?_⟩
  · intro hok
    simp [createTerminal, hok]
  · intro hok
    subst hok
    have e1 : (createTerminal p true cols rows).1 = (p.nextId : Int) := by
      simp [createTerminal]
    have e2 : (createTerminal p true cols rows).2 =
        { nextId := p.nextId + 1,
          entries := (p.nextId, newEntry cols rows) :: p.entries,
          issued := p.nextId :: p.issued, dirty := true } := by
      simp [createTerminal]
    refine ⟨?_, ?_, ?_, ?_⟩
    · rw [e1]; exact_mod_cast h1
    · intro i hi
      rw [e1]
      exact_mod_cast h2 i hi
    · rw [e2]
    · rw [e2]
      refine ⟨?_, ?_, ?_⟩
      · show 1 ≤ p.nextId + 1
        omega
      · intro i hi
        rcases List.mem_cons.mp hi with rfl | hi2
        · exact Nat.lt_succ_self _
        · exact Nat.lt_succ_of_lt (h2 i hi2)
      · intro kv hkv
        rcases List.mem_cons.mp hkv with rfl | hkv2
        · exact Nat.lt_succ_self _
        · exact Nat.lt_succ_of_lt (h3 kv hkv2)
  · intro id
    cases hl : lookupEntry p id with
    | none =>
      rw [close_of_lookup_none p id hl]
      exact ⟨rfl, rfl, h1, h2, h3⟩
    | some e =>
      have hf : findVal p.entries id = some e := hl
      have e3 : (closeTerminal p id).2 =
          { p with
            entries := p.entries.filter (fun kv => decide (kv.1 ≠ id))
            dirty := true } := by
        simp [closeTerminal, lookupEntry, hf]
      rw [e3]
      refine ⟨rfl, rfl, h1, h2, ?_⟩
      intro kv hkv
      exact h3 kv (List.mem_of_mem_filter hkv)

/-- Concrete run of `create_terminal_id_allocation` on the well-formed pool
`poolC` (counter 2, issued ids [1]). -/
theorem create_terminal_id_allocation_witness :
    PoolWF poolC ∧
    (PoolWF initPool ∧
     (true = false → createTerminal poolC true 80 24 = (-1, poolC)) ∧
     (true = true →
       1 ≤ (createTerminal poolC true 80 24).1 ∧
       (∀ i ∈ poolC.issued, (i : Int) < (createTerminal poolC true 80 24).1) ∧
       (createTerminal poolC true 80 24).2.issued = poolC.nextId :: poolC.issued ∧
       PoolWF (createTerminal poolC true 80 24).2) ∧
     (∀ id, (closeTerminal poolC id).2.nextId = poolC.nextId ∧
            (closeTerminal poolC id).2.issued = poolC.issued ∧
            PoolWF (closeTerminal poolC id).2)) :=
  ⟨by decide, create_terminal_id_allocation poolC true 80 24 (by decide)⟩

/-- A pool whose dirty flag is clear stays clear under operations that are
not visual-state mutations. -/
theorem dirty_stays_clear (ops : List PoolOp) :
    ∀ p : Pool, p.dirty = false → (∀ op ∈ ops, setsDirty op = false) →
      (applyOps p ops).dirty = false := by
  induction ops with
  | nil =>
    intro p h _
    exact h
  | cons op tl ih =>
    intro p h hops
    simp only [applyOps, List.foldl_cons]
    have h1 : setsDirty op = false := hops op (List.mem_cons_self op tl)
    have h2 : (applyOp p op).dirty = false := by
      cases op <;> simp_all [applyOp, setsDirty]
    exact ih (applyOp p op) h2 (fun o ho => hops o (List.mem_cons_of_mem _ ho))

/-- C8: the dirty flag is one flag ORed across the whole pool: PTY data
arriving for any terminal makes `needs_render` true, and immediately after
`clear_render_flag` it is false and stays false until some visual-state
mutation occurs. -/
theorem needs_render_dirty_flag (p : Pool) (id : Nat) (ops : List PoolOp)
    (hops : ∀ op ∈ ops, setsDirty op = false) :
    needsRender (applyOp p (PoolOp.ptyData id)) = true ∧
    needsRender (clearRenderFlag p) = false ∧
    needsRender (applyOps (clearRenderFlag p) ops) = false := by
  refine ⟨rfl, rfl, ?_⟩
  exact dirty_stays_clear ops (clearRenderFlag p) rfl hops

/-- Concrete run of `needs_render_dirty_flag` on `poolC` with a short tail
of non-mutating operations. -/
theorem needs_render_dirty_flag_witness :
    (∀ op ∈ [PoolOp.readQuery, PoolOp.clearFlag], setsDirty op = false) ∧
    (needsRender (applyOp poolC (PoolOp.ptyData 7)) = true ∧
     needsRender (clearRenderFlag poolC) = false ∧
     needsRender (applyOps (clearRenderFlag poolC) [PoolOp.readQuery, PoolOp.clearFlag]) = false) :=
  ⟨by decide, needs_render_dirty_flag poolC 7 [PoolOp.readQuery, PoolOp.clearFlag] (by decide)⟩

/-- C2 (amended): search start returns the total match count (at least 0) on
success; both failures — a pattern that fails to compile and an unknown
terminal id — return the sentinel -1 that the header doc of
`terminal_pool_search` specifies, and on either failure the pool is left
untouched, so no partial match list is installed. -/
theorem search_start_failure_sentinel (p : Pool) (id : Nat) (q : String) (ok : Bool) :
    (lookupEntry p id = none → searchStart p id q ok = (-1, p)) ∧
    (ok = false → searchStart p id q ok = (-1, p)) ∧
    (∀ e, lookupEntry p id = some e → ok = true →
      (searchStart p id q ok).1 = ((findMatches e q.toList).length : Int) ∧
      0 ≤ (searchStart p id q ok).1 ∧
      ∃ ci, lookupEntry (searchStart p id q ok).2 id =
        some { e with search := some { pattern := q,
                                       matchList := findMatches e q.toList,
                                       currentIndex := ci } }) := by
  refine ⟨?_, ?_, ?_⟩
  · intro hl
    have hf : findVal p.entries id = none := hl
    simp [searchStart, lookupEntry, hf]
  · intro hok
    subst hok
    cases hl : lookupEntry p id with
    | none =>
      have hf : findVal p.entries id = none := hl
      simp [searchStart, lookupEntry, hf]
    | some e =>
      have hf : findVal p.entries id = some e := hl
      simp [searchStart, lookupEntry, hf]
  · intro e he hok
    subst hok
    have hf : findVal p.entries id = some e := he
    have h1 : (searchStart p id q true).1 = ((findMatches e q.toList).length : Int) := by
      simp [searchStart, lookupEntry, hf]
    refine ⟨h1, h1 ▸ Int.natCast_nonneg _, (installedSearch e q).currentIndex, ?_⟩
    have hu := findVal_update p.entries id
      (fun e2 => { e2 with search := some (installedSearch e q) })
    show lookupEntry (searchStart p id q true).2 id =
      some { e with search := some (installedSearch e q) }
    have h6 : findVal
        (List.map (fun kv =>
          if kv.1 = id then (kv.1, { kv.2 with search := some (installedSearch e q) }) else kv)
          p.entries) id =
        some { e with search := some (installedSearch e q) } := by
      rw [hu, hf]
      rfl
    simp only [searchStart, lookupEntry, updateEntry, hf]
    exact h6

/-- Concrete run of `search_start_failure_sentinel` on `poolC`, whose
terminal `entB` is live under id 1. -/
theorem search_start_failure_sentinel_witness :
    lookupEntry poolC 1 = some entB ∧
    ((lookupEntry poolC 1 = none → searchStart poolC 1 "b" true = (-1, poolC)) ∧
     (true = false → searchStart poolC 1 "b" true = (-1, poolC)) ∧
     (∀ e, lookupEntry poolC 1 = some e → true = true →
       (searchStart poolC 1 "b" true).1 = ((findMatches e "b".toList).length : Int) ∧
       0 ≤ (searchStart poolC 1 "b" true).1 ∧
       ∃ ci, lookupEntry (searchStart poolC 1 "b" true).2 1 =
         some { e with search := some { pattern := "b",
                                        matchList := findMatches e "b".toList,
                                        currentIndex := ci } })) :=
  ⟨by decide, search_start_failure_sentinel poolC 1 "b" true⟩

/-- C2 counterexample: on the one-terminal pool `poolB`, the id 5 is
unknown, yet search start returns the header-documented failure sentinel -1
and not the -2 the claim requires for unknown ids. -/
theorem search_start_unknown_id_not_neg_two :
    lookupEntry poolB 5 = none ∧
    (searchStart poolB 5 "x" true).1 = -1 ∧
    ¬ (searchStart poolB 5 "x" true).1 = -2 := by
  decide

/-- C3: with N matches (N at least 1) and current 0-based index i, search
next and prev advance the index circularly and report the new 1-based
index — next from the last match wraps to match 1, prev from the first
wraps to match N — and with zero matches (or no search state) both report 0
and change nothing. -/
theorem search_next_prev_cycle (e : Entry) (st : SearchState) (i : Nat)
    (hs : e.search = some st) (hi : st.currentIndex = some i)
    (hlt : i < st.matchList.length) :
    ((searchNext e).1 = (i + 1) % st.matchList.length + 1 ∧
     (searchNext e).2.search =
       some { st with currentIndex := some ((i + 1) % st.matchList.length) } ∧
     (i + 1 = st.matchList.length → (searchNext e).1 = 1) ∧
     (i + 1 < st.matchList.length → (searchNext e).1 = i + 2)) ∧
    ((searchPrev e).1 = (i + st.matchList.length - 1) % st.matchList.length + 1 ∧
     (searchPrev e).2.search =
       some { st with currentIndex := some ((i + st.matchList.length - 1) % st.matchList.length) } ∧
     (i = 0 → (searchPrev e).1 = st.matchList.length) ∧
     (0 < i → (searchPrev e).1 = i)) ∧
    (∀ e2 : Entry, e2.search = none → searchNext e2 = (0, e2) ∧ searchPrev e2 = (0, e2)) ∧
    (∀ e2 : Entry, ∀ st2 : SearchState, e2.search = some st2 → st2.matchList = [] →
      searchNext e2 = (0, e2) ∧ searchPrev e2 = (0, e2)) := by
  have hpos : 0 < st.matchList.length := Nat.lt_of_le_of_lt (Nat.zero_le i) hlt
  have hne : st.matchList.isEmpty = false := by
    cases hmm : st.matchList with
    | nil => rw [hmm] at hpos; simp at hpos
    | cons a l => rfl
  have hn1 : (searchNext e).1 = (i + 1) % st.matchList.length + 1 := by
    simp [searchNext, hs, hne, hi]
  have hp1 : (searchPrev e).1 = (i + st.matchList.length - 1) % st.matchList.length + 1 := by
    simp [searchPrev, hs, hne, hi]
  refine ⟨⟨hn1, ?_, ?_, ?_⟩, ⟨hp1, ?_, ?_, ?_⟩, ?_, ?_⟩
  · simp [searchNext, hs, hne, hi]
  · intro hw
    rw [hn1, hw, Nat.mod_self]
  · intro hw
    rw [hn1, Nat.mod_eq_of_lt hw]
  · simp [searchPrev, hs, hne, hi]
  · intro hw
    subst hw
    rw [hp1, Nat.zero_add, Nat.mod_eq_of_lt (by omega)]
    omega
  · intro hw
    have hsplit : i + st.matchList.length - 1 = (i - 1) + st.matchList.length := by omega
    rw [hp1, hsplit, Nat.add_mod_right, Nat.mod_eq_of_lt (by omega)]
    omega
  · intro e2 h2
    constructor <;> simp [searchNext, searchPrev, h2]
  · intro e2 st2 h2 hm
    constructor <;> simp [searchNext, searchPrev, h2, hm]

/-- Example search state with two matches, currently on the second. -/
def stS : SearchState :=
  { pattern := "a"
    matchList := [{ row := 0, col := 0, len := 1 }, { row := 1, col := 0, len := 1 }]
    currentIndex := some 1 }

/-- Example terminal carrying the search state `stS`. -/
def entS : Entry :=
  { entB with search := some stS }

/-- Concrete run of `search_next_prev_cycle` on `entS`: from index 1 of 2,
next wraps to the first match and reports 1, prev reports 1 as well. -/
theorem search_next_prev_cycle_witness :
    entS.search = some stS ∧ stS.currentIndex = some 1 ∧ 1 < stS.matchList.length ∧
    (((searchNext entS).1 = (1 + 1) % stS.matchList.length + 1 ∧
      (searchNext entS).2.search =
        some { stS with currentIndex := some ((1 + 1) % stS.matchList.length) } ∧
      (1 + 1 = stS.matchList.length → (searchNext entS).1 = 1) ∧
      (1 + 1 < stS.matchList.length → (searchNext entS).1 = 1 + 2)) ∧
     ((searchPrev entS).1 = (1 + stS.matchList.length - 1) % stS.matchList.length + 1 ∧
      (searchPrev entS).2.search =
        some { stS with currentIndex := some ((1 + stS.matchList.length - 1) % stS.matchList.length) } ∧
      (1 = 0 → (searchPrev entS).1 = stS.matchList.length) ∧
      (0 < 1 → (searchPrev entS).1 = 1)) ∧
     (∀ e2 : Entry, e2.search = none → searchNext e2 = (0, e2) ∧ searchPrev e2 = (0, e2)) ∧
     (∀ e2 : Entry, ∀ st2 : SearchState, e2.search = some st2 → st2.matchList = [] →
       searchNext e2 = (0, e2) ∧ searchPrev e2 = (0, e2))) :=
  ⟨rfl, rfl, by decide, search_next_prev_cycle entS stS 1 rfl rfl (by decide)⟩
